import Mathlib

/-!
# session-5: routing, validation and error normalisation of `main.go`

A shallow embedding of the request pipeline set up by `main` in `src/main.go`:
the custom `HTTPErrorHandler`, the registered handlers, the validation of
`User2`, the route table, and the dispatch of a request (`ServeHTTP`).

Go strings are modelled by Lean strings (sequences of Unicode characters), Go
`int` values by `Int`.  The behaviour of the two libraries the program calls
(`labstack/echo/v4`, `go-playground/validator/v10`) and of `strings.Replace`
is modelled where the program depends on it; each such definition says which
library function it follows.
-/

namespace Session5

/-! ## Failures -/

/-- Go type `*echo.HTTPError`, restricted to the two fields the program reads:
`Code` (the HTTP status) and `Message` (serialised as the JSON member
`message`). -/
structure HTTPError where
  Code : Int
  Message : String
  deriving DecidableEq, Repr

/-- One entry of `validator.ValidationErrors`, with the accessors the program
and `Error()` use: `Namespace()`, `Field()`, `Tag()` and `Param()`. -/
structure FieldError where
  Namespace : String
  Field : String
  Tag : String
  Param : String
  deriving DecidableEq, Repr

/-- Text of `FieldError.Error()` in validator v10. -/
def FieldError.Error (fe : FieldError) : String :=
  "Key: '" ++ fe.Namespace ++ "' Error:Field validation for '" ++ fe.Field ++
    "' failed on the '" ++ fe.Tag ++ "' tag"

/-- A Go `error` value as the error handler can observe it: the first type
assertion `err.(*echo.HTTPError)` succeeds, or the second one
`err.(validator.ValidationErrors)` does, or neither (then only `err.Error()`
is read). -/
inductive GoError where
  | httpError (e : HTTPError)
  | validationErrors (ve : List FieldError)
  | other (text : String)
  deriving DecidableEq, Repr

/-- Text of `ValidationErrors.Error()`: the entries, one per line. -/
def ValidationErrors.Error (ve : List FieldError) : String :=
  "\n".intercalate (ve.map FieldError.Error)

/-- Text of `HTTPError.Error()` in echo v4 without an internal error. -/
def HTTPError.Error (e : HTTPError) : String :=
  "code=" ++ toString e.Code ++ ", message=" ++ e.Message

/-- Method `err.Error()`. -/
def GoError.Error : GoError → String
  | .httpError e => e.Error
  | .validationErrors ve => ValidationErrors.Error ve
  | .other text => text

/-- Constant `http.StatusInternalServerError`. -/
def StatusInternalServerError : Int := 500

/-- Constant `http.StatusOK`. -/
def StatusOK : Int := 200

/-- Function `echo.NewHTTPError(code, message)`. -/
def NewHTTPError (code : Int) (message : String) : HTTPError :=
  { Code := code, Message := message }

/-! ## The custom error handler (`main.go`, lines 58-85) -/

/-- The `switch err.Tag()` of the handler applied to one violation: the new
`report.Message`, or `none` when no case matches (the switch has no default and
leaves the message as it was). -/
def tagMessage (fe : FieldError) : Option String :=
  if fe.Tag = "required" then some (fe.Field ++ " is required")
  else if fe.Tag = "email" then some (fe.Field ++ " is not valid email")
  else if fe.Tag = "gte" then some (fe.Field ++ " value must be greater than " ++ fe.Param)
  else if fe.Tag = "lte" then some (fe.Field ++ " value must be lower than " ++ fe.Param)
  else none

/-- The `for _, err := range castedObject` loop of the handler: its body ends
in an unconditional `break`, so only the first entry is visited. -/
def rangeFirst (report : HTTPError) : List FieldError → HTTPError
  | [] => report
  | fe :: _ =>
    match tagMessage fe with
    | some m => { report with Message := m }
    | none => report

/-- The value of `report` when the handler reaches `c.JSON(report.Code, report)`:
the Error Report.  Its `Code` is the response status and its `Message` the
`message` member of the JSON body. -/
def HTTPErrorHandler (err : GoError) : HTTPError :=
  let report : HTTPError :=
    match err with
    | .httpError e => e
    | _ => NewHTTPError StatusInternalServerError err.Error
  match err with
  | .validationErrors castedObject => rangeFirst report castedObject
  | _ => report

/-! ## Validation of `User2` (`main.go`, lines 39-51) -/

/-- Struct `User2` after binding: `Name`, `Email`, `Age` (`main.go`, lines
39-43).  `Age` is a Go `int`; every Go `int` is an `Int`. -/
structure User2 where
  Name : String
  Email : String
  Age : Int
  deriving DecidableEq, Repr

/-- Validation of one struct field by validator v10: the tags of the field's
`validate:"..."` string are run from left to right and the first one that
fails yields the field's single violation.  Each item is
`(tag, param, whether the value satisfies it)`. -/
def validateField (ns field : String) : List (String × String × Bool) → List FieldError
  | [] => []
  | (tag, param, ok) :: rest =>
    if ok then validateField ns field rest
    else [{ Namespace := ns, Field := field, Tag := tag, Param := param }]

/-- Method `cv.validator.Struct(u)` for `u : *User2`, with a validator built by
`validator.New()` and nothing else registered: fields are visited in declared
order, and `Field()` is the Go field name (no tag-name function is registered,
so the `json` names are not used).

* `Name`  has `validate:"required"`;
* `Email` has `validate:"required,email"`;
* `Age`   has `validate:"gte=0,lte=80"`.

`required` on a string holds when it is not empty; `gte`/`lte` on an integer
compare with the parameter, bounds included.  The library's e-mail pattern is
not part of the repository: it is the parameter `isEmail`. -/
def validateUser2 (isEmail : String → Bool) (u : User2) : List FieldError :=
  validateField "User2.Name" "Name" [("required", "", decide (u.Name ≠ ""))] ++
  validateField "User2.Email" "Email"
    [("required", "", decide (u.Email ≠ "")), ("email", "", isEmail u.Email)] ++
  validateField "User2.Age" "Age"
    [("gte", "0", decide (0 ≤ u.Age)), ("lte", "80", decide (u.Age ≤ 80))]

/-- Method `CustomValidator.Validate` on a `*User2`: `nil` when there is no
violation, otherwise the `validator.ValidationErrors` value. -/
def Validate (isEmail : String → Bool) (u : User2) : Option GoError :=
  match validateUser2 isEmail u with
  | [] => none
  | ve => some (.validationErrors ve)

/-! ## Responses -/

/-- Struct `User` after binding: `Name`, `Email` (`main.go`, lines 33-36). -/
structure User where
  Name : String
  Email : String
  deriving DecidableEq, Repr

/-- What a handler or the error handler writes as the response body:
`c.String`, `c.HTML`, `c.JSON` of the value `true`, of an Error Report, of the
map `M` of `/json` and of a `User`, the `Location` of `c.Redirect`, bytes
written with `w.Write`, a file sent by the static handler, and the empty body
of `c.NoContent` in echo's handler for `OPTIONS`, with the methods that
handler names in the `Allow` header. -/
inductive Body where
  | text (s : String)
  | html (s : String)
  | jsonBool (b : Bool)
  | jsonReport (report : HTTPError)
  | jsonM (Message : String) (Counter : Int)
  | jsonUser (u : User)
  | redirect (url : String)
  | raw (s : String)
  | file (content : String)
  | noContent (allow : List String)
  deriving DecidableEq, Repr

/-- An HTTP response as the program writes it to the `ResponseWriter`: status
code and body.  (For a `HEAD` request `net/http` sends the status and drops
the body that was written.) -/
structure Response where
  status : Int
  body : Body
  deriving DecidableEq, Repr

/-- What `echo.ServeHTTP` does with the result of a handler: a returned error
goes to `HTTPErrorHandler`, which writes `c.JSON(report.Code, report)`. -/
def respond : Except GoError Response → Response
  | .ok r => r
  | .error err =>
    let report := HTTPErrorHandler err
    { status := report.Code, body := .jsonReport report }

/-- Handler of `POST /users` (`main.go`, lines 155-168).  `bound` is the outcome
of `c.Bind(u)`: the bound record, or the bind error that is returned as is. -/
def postUsers (isEmail : String → Bool) (bound : Except GoError User2) :
    Except GoError Response :=
  match bound with
  | .error err => .error err
  | .ok u =>
    match Validate isEmail u with
    | some err => .error err
    | none => .ok { status := StatusOK, body := .jsonBool true }

/-- A stand-in for the library's e-mail pattern, used only to evaluate
examples: it accepts the strings that contain `@`. -/
def sampleEmail (s : String) : Bool := decide ('@' ∈ s.data)

/-! ## `strings.Replace` and the handler of `POST /page4` -/

/-- Function `strings.Index(s, substr)`: the position of the first occurrence
of `substr` in `s`, or `-1`. -/
def Index : List Char → List Char → Int
  | [], substr => if substr.isEmpty then 0 else -1
  | c :: s, substr =>
    if substr.isPrefixOf (c :: s) then 0
    else
      let i := Index s substr
      if i < 0 then -1 else i + 1

/-- The loop of `strings.Count` for a separator of two or more characters:
count, cut after the occurrence, repeat. -/
def countLoop (substr : List Char) : Nat → List Char → Nat → Nat
  | 0, _, n => n
  | fuel + 1, s, n =>
    let i := Index s substr
    if i = -1 then n else countLoop substr fuel (s.drop (i.toNat + substr.length)) (n + 1)

/-- Function `strings.Count(s, substr)`: the number of non-overlapping
occurrences, with the library's special cases for an empty and for a
one-character `substr`. -/
def Count (s substr : List Char) : Nat :=
  match substr with
  | [] => s.length + 1
  | [c] => s.count c
  | _ => countLoop substr (s.length + 1) s 0

/-- The `for i := 0; i < n; i++` loop of `strings.Replace`; `k` is the number
of iterations left, `b` the text written to the builder so far. -/
def replaceLoop (s old new : List Char) : Nat → Nat → Nat → List Char → List Char
  | 0, _, start, b => b ++ s.drop start
  | k + 1, i, start, b =>
    let j :=
      if old.length = 0 then (if i > 0 then start + 1 else start)
      else start + (Index (s.drop start) old).toNat
    replaceLoop s old new k (i + 1) (j + old.length)
      (b ++ (s.drop start).take (j - start) ++ new)

/-- Function `strings.Replace(s, old, new, n)` on character sequences: the
first `n` non-overlapping occurrences of `old` replaced by `new` (all of them
when `n < 0`). -/
def ReplaceChars (s old new : List Char) (n : Int) : List Char :=
  if old = new ∨ n = 0 then s
  else
    let m := Count s old
    if m = 0 then s
    else
      let n := if n < 0 ∨ (m : Int) < n then (m : Int) else n
      replaceLoop s old new n.toNat 0 0 []

/-- Function `strings.Replace` on strings. -/
def Replace (s old new : String) (n : Int) : String :=
  ⟨ReplaceChars s.data old.data new.data n⟩

/-! ## The handlers registered in `main` -/

/-- The part of `echo.Context` the handlers read: the path parameters captured
by the router (`c.Param`), the query parameters of the URL (`c.QueryParam`)
and the fields of the form body (`form`; `c.FormValue` reads them and then the
query parameters). -/
structure Context where
  params : List (String × String)
  query : List (String × String)
  form : List (String × String)
  deriving Repr

/-- Method `c.Param(name)`: the captured value, or the empty string. -/
def Context.Param (c : Context) (name : String) : String :=
  (c.params.lookup name).getD ""

/-- Method `c.QueryParam(name)`: the first value of the parameter, or the
empty string. -/
def Context.QueryParam (c : Context) (name : String) : String :=
  (c.query.lookup name).getD ""

/-- Method `c.FormValue(name)`, which is `Request.FormValue` of `net/http`:
the first value of the field in the form body; when the body has no such
field, the first value of the query parameter of that name; otherwise the
empty string. -/
def Context.FormValue (c : Context) (name : String) : String :=
  match c.form.lookup name with
  | some v => v
  | none => (c.query.lookup name).getD ""

/-- Handler of `GET /index` (`main.go`, lines 87-90). -/
def getIndex : Except GoError Response :=
  let data := "Hello from /index"
  .ok { status := StatusOK, body := .text data }

/-- Handler of `GET /html` (`main.go`, lines 92-95). -/
def getHtml : Except GoError Response :=
  let data := "Hello from /html"
  .ok { status := StatusOK, body := .html data }

/-- Handler of `GET /redirect` (`main.go`, lines 97-99);
`http.StatusTemporaryRedirect` is 307. -/
def getRedirect : Except GoError Response :=
  .ok { status := 307, body := .redirect "/index" }

/-- Handler of `GET /json` (`main.go`, lines 101-104). -/
def getJson : Except GoError Response :=
  .ok { status := StatusOK, body := .jsonM "Hello" 2 }

/-- Handler of `GET /page1` (`main.go`, lines 106-111). -/
def getPage1 (c : Context) : Except GoError Response :=
  let name := c.QueryParam "name"
  let data := "hello " ++ name
  .ok { status := StatusOK, body := .text data }

/-- Handler of `GET /page2/:name` (`main.go`, lines 113-118). -/
def getPage2 (c : Context) : Except GoError Response :=
  let name := c.Param "name"
  let data := "Hello " ++ name
  .ok { status := StatusOK, body := .text data }

/-- Handler of `GET /page3/:name/*` (`main.go`, lines 120-127). -/
def getPage3 (c : Context) : Except GoError Response :=
  let name := c.Param "name"
  let msg := c.Param "*"
  let data := "Hello " ++ name ++ ", I have a message for you: " ++ msg
  .ok { status := StatusOK, body := .text data }

/-- Handler of `POST /page4` (`main.go`, lines 129-136). -/
def postPage4 (c : Context) : Except GoError Response :=
  let name := c.FormValue "name"
  let msg := c.FormValue "message"
  let data := "Hello " ++ name ++ ", I have a message for you: " ++ Replace msg "/" "" 1
  .ok { status := StatusOK, body := .text data }

/-- What a wrapped `net/http` handler sends when it only calls `w.Write(text)`:
status 200 and the text. -/
def wrapped (text : String) : Except GoError Response :=
  .ok { status := StatusOK, body := .raw text }

/-- Variable `ActionIndex` (`main.go`, lines 15-17), wrapped at line 139. -/
def ActionIndex : Except GoError Response := wrapped "from action index"

/-- Variable `ActionHome` (`main.go`, lines 19-23), wrapped at line 140. -/
def ActionHome : Except GoError Response := wrapped "from action home"

/-- Variable `ActionAbout` (`main.go`, lines 25-31). -/
def ActionAbout : Except GoError Response := wrapped "from action about"

/-- Handler of `ANY /user` (`main.go`, lines 147-153).  `bound` is the outcome
of `c.Bind(u)`. -/
def anyUser (bound : Except GoError User) : Except GoError Response :=
  match bound with
  | .error err => .error err
  | .ok u => .ok { status := StatusOK, body := .jsonUser u }

/-! ## The route table and the router -/

/-- A piece of a registered path, as the echo router splits it: literal text,
a named parameter `:name`, or the trailing wildcard `*`. -/
inductive Piece where
  | lit (text : String)
  | param (name : String)
  | any
  deriving DecidableEq, Repr

/-- Matching of a registered path against the rest of a request path, after
`Router.Find` of echo v4: literal text must be a prefix of what is left; a
parameter is tried only when something is left, and takes the characters up to
the next `/` (possibly none), or all that is left when the parameter ends the
registered path; the wildcard takes all that is left, separators included,
also when nothing is left.  The result lists the captured values under their
names, the wildcard under `*`. -/
def matchPieces : List Piece → List Char → Option (List (String × String))
  | [], [] => some []
  | [], _ :: _ => none
  | .lit text :: ps, path =>
    if text.data.isPrefixOf path then matchPieces ps (path.drop text.data.length) else none
  | [.param name], path => if path.isEmpty then none else some [(name, ⟨path⟩)]
  | .param name :: ps, path =>
    if path.isEmpty then none
    else
      let v := path.takeWhile (fun c => c != '/')
      (matchPieces ps (path.drop v.length)).map (fun rest => (name, ⟨v⟩) :: rest)
  | .any :: _, path => some [("*", ⟨path⟩)]

/-- The handlers registered in `main`, by the path they are registered on. -/
inductive Handler where
  | index | html | redirect | json | page1 | page2 | page3 | page4
  | index2 | home | about | static | user | users
  deriving DecidableEq, Repr

/-- One registration: method, registered path, handler. -/
structure Route where
  Method : String
  Path : List Piece
  handler : Handler
  deriving Repr

/-- The methods `Echo.Any` registers a handler for. -/
def anyMethods : List String :=
  ["CONNECT", "DELETE", "GET", "HEAD", "OPTIONS", "PATCH", "POST", "PROPFIND", "PUT",
   "TRACE", "REPORT"]

/-- The registrations of `main` (`main.go`, lines 87-168), in source order:
`r.GET`, `r.POST` register one route each; `r.Static("/static", "assets")`
registers a `GET` route with a trailing wildcard under the prefix;
`r.Any("/user", ...)` registers one route per method of `anyMethods`. -/
def routes : List Route :=
  [ ⟨"GET", [.lit "/index"], .index⟩,
    ⟨"GET", [.lit "/html"], .html⟩,
    ⟨"GET", [.lit "/redirect"], .redirect⟩,
    ⟨"GET", [.lit "/json"], .json⟩,
    ⟨"GET", [.lit "/page1"], .page1⟩,
    ⟨"GET", [.lit "/page2/", .param "name"], .page2⟩,
    ⟨"GET", [.lit "/page3/", .param "name", .lit "/", .any], .page3⟩,
    ⟨"POST", [.lit "/page4"], .page4⟩,
    ⟨"GET", [.lit "/index2"], .index2⟩,
    ⟨"GET", [.lit "/home"], .home⟩,
    ⟨"GET", [.lit "/about"], .about⟩,
    ⟨"GET", [.lit "/static", .any], .static⟩ ] ++
  anyMethods.map (fun m => ⟨m, [.lit "/user"], .user⟩) ++
  [ ⟨"POST", [.lit "/users"], .users⟩ ]

/-- Outcome of `Router.Find`: a registered handler with the captured
parameters, or one of the fallback handlers of echo: `NotFoundHandler`,
`MethodNotAllowedHandler`, or for the method `OPTIONS` the handler
`optionsMethodHandler` with the methods of its `Allow` header. -/
inductive Resolved where
  | found (h : Handler) (params : List (String × String))
  | notFound
  | methodNotAllowed
  | optionsMethod (allow : List String)
  deriving DecidableEq, Repr

/-- The registrations whose path matches the request path, each with its
captures. -/
def matching (path : String) : List (Route × List (String × String)) :=
  routes.filterMap (fun r => (matchPieces r.Path path.data).map (fun ps => (r, ps)))

/-- Method `Router.Find(method, path, c)` over `routes`: the registration whose
path matches and whose method is the request method; when the path matches
only registrations of other methods, echo selects `MethodNotAllowedHandler`,
or, when the request method is `OPTIONS`, its `optionsMethodHandler` for the
methods registered on that path; when the path matches no registration, it
selects `NotFoundHandler`.  `path` is the path echo gives the router
(`GetPath(r)`).  The registered paths of `main`
exclude one another (`matching_unique`), so the precedence rules of the router
between overlapping paths play no part. -/
def Find (method path : String) : Resolved :=
  match (matching path).find? (fun x => x.1.Method == method) with
  | some (r, ps) => .found r.handler ps
  | none =>
    if (matching path).isEmpty then .notFound
    else if method == "OPTIONS" then
      .optionsMethod ("OPTIONS" :: (matching path).map (fun x => x.1.Method))
    else .methodNotAllowed

/-- Variable `echo.ErrNotFound`. -/
def ErrNotFound : HTTPError := NewHTTPError 404 "Not Found"

/-- Variable `echo.ErrMethodNotAllowed`. -/
def ErrMethodNotAllowed : HTTPError := NewHTTPError 405 "Method Not Allowed"

/-- Function `echo.NotFoundHandler`. -/
def NotFoundHandler : Except GoError Response := .error (.httpError ErrNotFound)

/-- Function `echo.MethodNotAllowedHandler`. -/
def MethodNotAllowedHandler : Except GoError Response :=
  .error (.httpError ErrMethodNotAllowed)

/-- Function `optionsMethodHandler(allowMethods)` of echo's router: it adds the
`Allow` header and returns `c.NoContent(http.StatusNoContent)`, status 204,
without an error. -/
def optionsMethodHandler (allow : List String) : Except GoError Response :=
  .ok { status := 204, body := .noContent allow }

/-- An incoming request: method, path, query parameters and form values, and
what the collaborators outside the repository make of it: the outcome of
`c.Bind` into a `User` and into a `User2` (an empty body binds to the zero
value), and the outcome of the static file handler (not found by default). -/
structure Request where
  Method : String
  Path : String
  query : List (String × String) := []
  form : List (String × String) := []
  bindUser : Except GoError User := .ok ⟨"", ""⟩
  bindUser2 : Except GoError User2 := .ok ⟨"", "", 0⟩
  staticFile : Except GoError Response := NotFoundHandler

/-- The handler function registered for each route, applied to the context of
the request. -/
def handle (isEmail : String → Bool) (req : Request) (c : Context) :
    Handler → Except GoError Response
  | .index => getIndex
  | .html => getHtml
  | .redirect => getRedirect
  | .json => getJson
  | .page1 => getPage1 c
  | .page2 => getPage2 c
  | .page3 => getPage3 c
  | .page4 => postPage4 c
  | .index2 => ActionIndex
  | .home => ActionHome
  | .about => ActionAbout
  | .static => req.staticFile
  | .user => anyUser req.bindUser
  | .users => postUsers isEmail req.bindUser2

/-- Method `Echo.ServeHTTP`, on a request that `net/http` passes to echo: the
router selects a handler, the handler runs, and a returned error goes to the
custom `HTTPErrorHandler`.  (The request `OPTIONS *` is answered by `net/http`
itself and never reaches echo.) -/
def ServeHTTP (isEmail : String → Bool) (req : Request) : Response :=
  match Find req.Method req.Path with
  | .found h params => respond (handle isEmail req ⟨params, req.query, req.form⟩ h)
  | .notFound => respond NotFoundHandler
  | .methodNotAllowed => respond MethodNotAllowedHandler
  | .optionsMethod allow => respond (optionsMethodHandler allow)

/-- The request `POST /users` whose JSON body binds to the record `u`. -/
def usersRequest (u : User2) : Request :=
  { Method := "POST", Path := "/users", bindUser2 := .ok u }

/-- The request `POST /page4` with the form fields `name` and `message`. -/
def page4Request (name message : String) : Request :=
  { Method := "POST", Path := "/page4", form := [("name", name), ("message", message)] }

/-- A request with the given method and path, and no parameters or body. -/
def plainRequest (method path : String) : Request :=
  { Method := method, Path := path }

/-- The literal text a registered path starts with. -/
def Route.firstLit (r : Route) : List Char :=
  match r.Path with
  | .lit text :: _ => text.data
  | _ => []

/-- Whether a registered path is literal text only. -/
def Route.literalOnly (r : Route) : Bool :=
  match r.Path with
  | [.lit _] => true
  | _ => false

/-- The `message` member of a response that carries an Error Report. -/
def Response.message (r : Response) : Option String :=
  match r.body with
  | .jsonReport report => some report.Message
  | _ => none

/-! ## Lemmas on the error handler -/

theorem rangeFirst_Code (report : HTTPError) (ve : List FieldError) :
    (rangeFirst report ve).Code = report.Code := by
  cases ve with
  | nil => rfl
  | cons fe rest =>
    simp only [rangeFirst]
    cases tagMessage fe <;> rfl

theorem handler_validation_Code (ve : List FieldError) :
    (HTTPErrorHandler (.validationErrors ve)).Code = 500 := by
  simp [HTTPErrorHandler, rangeFirst_Code, NewHTTPError, StatusInternalServerError]

theorem handler_validation_Message (fe : FieldError) (rest : List FieldError) (m : String)
    (h : tagMessage fe = some m) :
    (HTTPErrorHandler (.validationErrors (fe :: rest))).Message = m := by
  simp [HTTPErrorHandler, rangeFirst, h]

/-! ## Lemmas on the validation of `User2` -/

theorem postUsers_invalid (isEmail : String → Bool) (u : User2)
    (h : validateUser2 isEmail u ≠ []) :
    postUsers isEmail (.ok u) = .error (.validationErrors (validateUser2 isEmail u)) := by
  cases hv : validateUser2 isEmail u with
  | nil => exact absurd hv h
  | cons fe rest => simp [postUsers, Validate, hv]

theorem postUsers_valid (isEmail : String → Bool) (u : User2)
    (h : validateUser2 isEmail u = []) :
    postUsers isEmail (.ok u) = .ok { status := 200, body := .jsonBool true } := by
  simp [postUsers, Validate, h, StatusOK]

theorem validateUser2_eq_nil (isEmail : String → Bool) (u : User2) :
    validateUser2 isEmail u = [] ↔
      u.Name ≠ "" ∧ u.Email ≠ "" ∧ isEmail u.Email = true ∧ 0 ≤ u.Age ∧ u.Age ≤ 80 := by
  unfold validateUser2
  by_cases h1 : u.Name = "" <;> by_cases h2 : u.Email = "" <;>
    by_cases h3 : isEmail u.Email = true <;> by_cases h4 : 0 ≤ u.Age <;>
    by_cases h5 : u.Age ≤ 80 <;> simp [validateField, h1, h2, h3, h4, h5]

theorem validateUser2_name_empty (isEmail : String → Bool) (u : User2) (h : u.Name = "") :
    ∃ rest, validateUser2 isEmail u =
      { Namespace := "User2.Name", Field := "Name", Tag := "required", Param := "" } :: rest := by
  unfold validateUser2
  simp [validateField, h]

theorem validateUser2_email_empty (isEmail : String → Bool) (u : User2)
    (h1 : u.Name ≠ "") (h2 : u.Email = "") :
    ∃ rest, validateUser2 isEmail u =
      { Namespace := "User2.Email", Field := "Email", Tag := "required", Param := "" } :: rest := by
  unfold validateUser2
  simp [validateField, h1, h2]

theorem validateUser2_age_high (isEmail : String → Bool) (u : User2)
    (h1 : u.Name ≠ "") (h2 : u.Email ≠ "") (h3 : isEmail u.Email = true) (h4 : 80 < u.Age) :
    validateUser2 isEmail u =
      [{ Namespace := "User2.Age", Field := "Age", Tag := "lte", Param := "80" }] := by
  unfold validateUser2
  have h5 : 0 ≤ u.Age := by omega
  have h6 : ¬ u.Age ≤ 80 := by omega
  simp [validateField, h1, h2, h3, h5, h6]

theorem validateField_tags (ns field : String) (items : List (String × String × Bool))
    (fe : FieldError) (h : fe ∈ validateField ns field items) :
    fe.Tag ∈ items.map (fun item => item.1) := by
  induction items with
  | nil => simp [validateField] at h
  | cons item rest ih =>
    obtain ⟨tag, param, ok⟩ := item
    cases ok with
    | true =>
      simp only [validateField, if_true] at h
      exact List.mem_cons_of_mem _ (ih h)
    | false =>
      simp [validateField] at h
      simp [h]

theorem validateUser2_tags (isEmail : String → Bool) (u : User2) (fe : FieldError)
    (h : fe ∈ validateUser2 isEmail u) : fe.Tag ∈ ["required", "email", "gte", "lte"] := by
  simp only [validateUser2, List.mem_append] at h
  rcases h with (h | h) | h
  · have := validateField_tags _ _ _ fe h
    simp at this
    simp [this]
  · have := validateField_tags _ _ _ fe h
    simp at this
    rcases this with t | t <;> simp [t]
  · have := validateField_tags _ _ _ fe h
    simp at this
    rcases this with t | t <;> simp [t]

theorem users_message (isEmail : String → Bool) (u : User2) (fe : FieldError)
    (rest : List FieldError) (m : String) (hv : validateUser2 isEmail u = fe :: rest)
    (hm : tagMessage fe = some m) :
    (respond (postUsers isEmail (.ok u))).message = some m := by
  have hne : validateUser2 isEmail u ≠ [] := by simp [hv]
  rw [postUsers_invalid isEmail u hne, hv]
  simp [respond, Response.message, handler_validation_Message fe rest m hm]

/-! ## Lemmas on `strings.Replace` -/

theorem Index_first (pre post : List Char) (c : Char) (h : c ∉ pre) :
    Index (pre ++ c :: post) [c] = pre.length := by
  induction pre with
  | nil => simp [Index, List.isPrefixOf]
  | cons a pre ih =>
    have ha : ¬ c = a := fun e => h (by simp [e])
    have hc : c ∉ pre := fun e => h (by simp [e])
    have hi := ih hc
    simp only [List.cons_append, Index, List.isPrefixOf, hi]
    simp [ha]
    omega

theorem ReplaceChars_absent (s : List Char) (c : Char) (h : c ∉ s) :
    ReplaceChars s [c] [] 1 = s := by
  simp [ReplaceChars, Count, List.count_eq_zero.2 h]

theorem ReplaceChars_first (pre post : List Char) (c : Char) (h : c ∉ pre) :
    ReplaceChars (pre ++ c :: post) [c] [] 1 = pre ++ post := by
  have hpos : 0 < List.count c (pre ++ c :: post) := by
    apply List.count_pos_iff.2
    simp
  have hm : ¬ List.count c (pre ++ c :: post) = 0 := by omega
  have hlt : ¬ ((List.count c (pre ++ c :: post) : Int) < 1) := by omega
  simp only [ReplaceChars, Count]
  simp [hm, hlt, replaceLoop, Index_first pre post c h]

theorem Replace_absent (s : String) (h : '/' ∉ s.data) : Replace s "/" "" 1 = s := by
  show (⟨ReplaceChars s.data ['/'] [] 1⟩ : String) = s
  rw [ReplaceChars_absent s.data '/' h]

theorem Replace_first (pre post : String) (h : '/' ∉ pre.data) :
    Replace (pre ++ "/" ++ post) "/" "" 1 = pre ++ post := by
  show (⟨ReplaceChars (pre ++ "/" ++ post).data ['/'] [] 1⟩ : String) = pre ++ post
  have hd : (pre ++ "/" ++ post).data = pre.data ++ '/' :: post.data := by
    simp [String.data_append]
  rw [hd, ReplaceChars_first pre.data post.data '/' h]
  apply String.ext
  simp [String.data_append]

/-! ## Lemmas on the router -/

theorem takeWhile_segment (name rest : List Char) (h : '/' ∉ name) :
    (name ++ '/' :: rest).takeWhile (fun c => c != '/') = name := by
  have hall : ∀ a ∈ name, (fun c : Char => c != '/') a = true := by
    intro a ha
    have : a ≠ '/' := fun e => h (e ▸ ha)
    simp [this]
  rw [List.takeWhile_append_of_pos hall]
  simp

theorem matchPieces_page3 (name rest : String) (h0 : name ≠ "") (h : '/' ∉ name.data) :
    matchPieces [.lit "/", .any] ('/' :: rest.data) = some [("*", rest)] ∧
    matchPieces [.param "name", .lit "/", .any] (name.data ++ '/' :: rest.data) =
      some [("name", name), ("*", rest)] := by
  have e1 : "/".data = ['/'] := rfl
  have hne : name.data ≠ [] := fun e => h0 (String.ext e)
  have h1 : matchPieces [.lit "/", .any] ('/' :: rest.data) = some [("*", rest)] := by
    simp [matchPieces, e1, List.isPrefixOf]
  refine ⟨h1, ?_⟩
  simp [matchPieces, takeWhile_segment name.data rest.data h, hne, h1]

theorem matching_page3 (name rest : String) (h0 : name ≠ "") (h : '/' ∉ name.data) :
    matching ("/page3/" ++ name ++ "/" ++ rest) =
      [(⟨"GET", [.lit "/page3/", .param "name", .lit "/", .any], .page3⟩,
        [("name", name), ("*", rest)])] := by
  have hd : ("/page3/" ++ name ++ "/" ++ rest).data =
      '/' :: 'p' :: 'a' :: 'g' :: 'e' :: '3' :: '/' :: (name.data ++ '/' :: rest.data) := by
    simp [String.data_append]
  have l1 : "/index".data = ['/', 'i', 'n', 'd', 'e', 'x'] := rfl
  have l2 : "/html".data = ['/', 'h', 't', 'm', 'l'] := rfl
  have l3 : "/redirect".data = ['/', 'r', 'e', 'd', 'i', 'r', 'e', 'c', 't'] := rfl
  have l4 : "/json".data = ['/', 'j', 's', 'o', 'n'] := rfl
  have l5 : "/page1".data = ['/', 'p', 'a', 'g', 'e', '1'] := rfl
  have l6 : "/page2/".data = ['/', 'p', 'a', 'g', 'e', '2', '/'] := rfl
  have l7 : "/page3/".data = ['/', 'p', 'a', 'g', 'e', '3', '/'] := rfl
  have l8 : "/page4".data = ['/', 'p', 'a', 'g', 'e', '4'] := rfl
  have l9 : "/index2".data = ['/', 'i', 'n', 'd', 'e', 'x', '2'] := rfl
  have l10 : "/home".data = ['/', 'h', 'o', 'm', 'e'] := rfl
  have l11 : "/about".data = ['/', 'a', 'b', 'o', 'u', 't'] := rfl
  have l12 : "/static".data = ['/', 's', 't', 'a', 't', 'i', 'c'] := rfl
  have l13 : "/user".data = ['/', 'u', 's', 'e', 'r'] := rfl
  have l14 : "/users".data = ['/', 'u', 's', 'e', 'r', 's'] := rfl
  have hp := (matchPieces_page3 name rest h0 h).2
  have m7 : matchPieces [.lit "/page3/", .param "name", .lit "/", .any]
      ('/' :: 'p' :: 'a' :: 'g' :: 'e' :: '3' :: '/' :: (name.data ++ '/' :: rest.data)) =
      some [("name", name), ("*", rest)] := by
    rw [matchPieces]
    simp only [l7, List.isPrefixOf]
    simp [hp]
  simp only [matching, routes, anyMethods, hd, List.map, List.cons_append, List.nil_append,
    List.filterMap_cons, List.filterMap_nil, m7]
  simp [matchPieces, l1, l2, l3, l4, l5, l6, l8, l9, l10, l11, l12, l13, l14, List.isPrefixOf]

theorem find_none_of_unmatched (method path : String)
    (h : ∀ r ∈ routes, r.Method = method → matchPieces r.Path path.data = none) :
    (matching path).find? (fun x => x.1.Method == method) = none := by
  rw [List.find?_eq_none]
  intro x hx
  simp only [matching, List.mem_filterMap] at hx
  obtain ⟨r, hr, hm⟩ := hx
  intro hxm
  cases hmp : matchPieces r.Path path.data with
  | none => simp [hmp] at hm
  | some ps =>
    simp [hmp] at hm
    subst hm
    have hrm : r.Method = method := by simpa using hxm
    rw [h r hr hrm] at hmp
    exact Option.noConfusion hmp

theorem matching_eq_nil_iff (path : String) :
    matching path = [] ↔ ∀ r ∈ routes, matchPieces r.Path path.data = none := by
  simp only [matching, List.filterMap_eq_nil_iff]
  constructor
  · intro h r hr
    have := h r hr
    cases hmp : matchPieces r.Path path.data with
    | none => rfl
    | some ps => simp [hmp] at this
  · intro h r hr
    simp [h r hr]

/-! ## The registered paths exclude one another

A request path is matched by at most one registered path, so the handler that
`Find` selects does not depend on the order of the registrations. -/

theorem firstLit_prefix (r : Route) (path : List Char) (ps : List (String × String))
    (h : matchPieces r.Path path = some ps) : r.firstLit <+: path := by
  unfold Route.firstLit
  cases hp : r.Path with
  | nil => exact List.nil_prefix
  | cons p rest =>
    cases p with
    | lit text =>
      rw [hp, matchPieces] at h
      by_cases hpre : text.data.isPrefixOf path = true
      · exact List.isPrefixOf_iff_prefix.1 hpre
      · simp [hpre] at h
    | param name => exact List.nil_prefix
    | any => exact List.nil_prefix

theorem literalOnly_eq (r : Route) (path : List Char) (ps : List (String × String))
    (hl : r.literalOnly = true) (h : matchPieces r.Path path = some ps) :
    path = r.firstLit := by
  unfold Route.literalOnly at hl
  unfold Route.firstLit
  cases hp : r.Path with
  | nil => simp [hp] at hl
  | cons p rest =>
    cases p with
    | lit text =>
      cases rest with
      | nil =>
        rw [hp, matchPieces] at h
        by_cases hpre : text.data.isPrefixOf path = true
        · have hpf := List.isPrefixOf_iff_prefix.1 hpre
          simp only [hpre, if_true] at h
          cases hd : path.drop text.data.length with
          | nil =>
            have := List.prefix_iff_eq_append.1 hpf
            rw [hd, List.append_nil] at this
            exact this.symm
          | cons c cs =>
            rw [hd, matchPieces] at h
            exact Option.noConfusion h
        · simp [hpre] at h
      | cons q qs => simp [hp] at hl
    | param name => simp [hp] at hl
    | any => simp [hp] at hl

theorem routes_separate :
    ∀ r1 ∈ routes, ∀ r2 ∈ routes, r1.Path ≠ r2.Path →
      r1.firstLit.isPrefixOf r2.firstLit = true →
      r1.literalOnly = true ∧ r1.firstLit ≠ r2.firstLit := by
  decide

theorem routes_handler_of_path :
    ∀ r1 ∈ routes, ∀ r2 ∈ routes, r1.Path = r2.Path → r1.handler = r2.handler := by
  decide

theorem path_unique_aux (path : List Char) (r1 r2 : Route) (ps1 ps2 : List (String × String))
    (hr1 : r1 ∈ routes) (hr2 : r2 ∈ routes)
    (h1 : matchPieces r1.Path path = some ps1) (h2 : matchPieces r2.Path path = some ps2)
    (hlen : r1.firstLit.length ≤ r2.firstLit.length) : r1.Path = r2.Path := by
  by_contra hne
  have p1 := firstLit_prefix r1 path ps1 h1
  have p2 := firstLit_prefix r2 path ps2 h2
  have p12 : r1.firstLit <+: r2.firstLit := List.prefix_of_prefix_length_le p1 p2 hlen
  obtain ⟨hl, hk⟩ := routes_separate r1 hr1 r2 hr2 hne (List.isPrefixOf_iff_prefix.2 p12)
  have hpath := literalOnly_eq r1 path ps1 hl h1
  rw [hpath] at p2
  exact hk (p12.eq_of_length (Nat.le_antisymm p12.length_le p2.length_le))

theorem matching_unique (path : String) (x y : Route × List (String × String))
    (hx : x ∈ matching path) (hy : y ∈ matching path) :
    x.1.Path = y.1.Path ∧ x.1.handler = y.1.handler ∧ x.2 = y.2 := by
  simp only [matching, List.mem_filterMap, Option.map_eq_some'] at hx hy
  obtain ⟨r1, hr1, ps1, h1, rfl⟩ := hx
  obtain ⟨r2, hr2, ps2, h2, rfl⟩ := hy
  have hpath : r1.Path = r2.Path := by
    rcases Nat.le_total r1.firstLit.length r2.firstLit.length with hlen | hlen
    · exact path_unique_aux path.data r1 r2 ps1 ps2 hr1 hr2 h1 h2 hlen
    · exact (path_unique_aux path.data r2 r1 ps2 ps1 hr2 hr1 h2 h1 hlen).symm
  refine ⟨hpath, routes_handler_of_path r1 hr1 r2 hr2 hpath, ?_⟩
  show ps1 = ps2
  rw [hpath, h2] at h1
  exact (Option.some.inj h1).symm

theorem Find_of_matching (method path : String) (r : Route) (ps : List (String × String))
    (hmem : (r, ps) ∈ matching path) (hm : r.Method = method) :
    Find method path = .found r.handler ps := by
  unfold Find
  cases hf : (matching path).find? (fun x => x.1.Method == method) with
  | none =>
    have := List.find?_eq_none.1 hf (r, ps) hmem
    simp [hm] at this
  | some y =>
    have hy := List.mem_of_find?_eq_some hf
    obtain ⟨_, hh, hps⟩ := matching_unique path (r, ps) y hmem hy
    obtain ⟨r2, ps2⟩ := y
    simp only at hh hps
    simp [hh, hps]

theorem Find_found_iff (method path : String) (h : Handler) (ps : List (String × String)) :
    Find method path = .found h ps ↔
      ∃ r ∈ routes, r.Method = method ∧ r.handler = h ∧
        matchPieces r.Path path.data = some ps := by
  constructor
  · intro hf
    unfold Find at hf
    cases hfind : (matching path).find? (fun x => x.1.Method == method) with
    | none =>
      rw [hfind] at hf
      by_cases he : (matching path).isEmpty = true <;>
        by_cases ho : method = "OPTIONS" <;> simp [he, ho] at hf
    | some y =>
      rw [hfind] at hf
      obtain ⟨r, ps2⟩ := y
      have hmem := List.mem_of_find?_eq_some hfind
      have hmeth := List.find?_some hfind
      simp only [matching, List.mem_filterMap, Option.map_eq_some'] at hmem
      obtain ⟨r0, hr0, ps0, hm0, heq⟩ := hmem
      simp only [Prod.mk.injEq] at heq
      simp only [Resolved.found.injEq] at hf
      refine ⟨r0, hr0, ?_, ?_, ?_⟩
      · rw [heq.1]
        simpa using hmeth
      · rw [heq.1]
        exact hf.1
      · rw [hm0, heq.2, hf.2]
  · rintro ⟨r, hr, hm, hh, hmp⟩
    have hmem : (r, ps) ∈ matching path := by
      simp only [matching, List.mem_filterMap, Option.map_eq_some']
      exact ⟨r, hr, ps, hmp, rfl⟩
    rw [← hh]
    exact Find_of_matching method path r ps hmem hm

/-! ## Lemmas on `ServeHTTP` -/

theorem ServeHTTP_users (isEmail : String → Bool) (req : Request)
    (hm : req.Method = "POST") (hp : req.Path = "/users") :
    ServeHTTP isEmail req = respond (postUsers isEmail req.bindUser2) := by
  have hf : Find "POST" "/users" = .found .users [] := by decide
  simp only [ServeHTTP, hm, hp, hf, handle]

theorem ServeHTTP_page4 (isEmail : String → Bool) (req : Request)
    (hm : req.Method = "POST") (hp : req.Path = "/page4") :
    ServeHTTP isEmail req = respond (postPage4 ⟨[], req.query, req.form⟩) := by
  have hf : Find "POST" "/page4" = .found .page4 [] := by decide
  simp only [ServeHTTP, hm, hp, hf, handle]

theorem Find_page3 (name rest : String) (h0 : name ≠ "") (h : '/' ∉ name.data) :
    Find "GET" ("/page3/" ++ name ++ "/" ++ rest) =
      .found .page3 [("name", name), ("*", rest)] := by
  simp [Find, matching_page3 name rest h0 h]

theorem ServeHTTP_users_message (isEmail : String → Bool) (req : Request) (u : User2)
    (fe : FieldError) (rest : List FieldError) (m : String)
    (hm : req.Method = "POST") (hp : req.Path = "/users") (hb : req.bindUser2 = .ok u)
    (hv : validateUser2 isEmail u = fe :: rest) (ht : tagMessage fe = some m) :
    (ServeHTTP isEmail req).message = some m := by
  rw [ServeHTTP_users isEmail req hm hp, hb]
  exact users_message isEmail u fe rest m hv ht

/-! ## The error handler: statuses and messages -/

/-- C1, as the claim states it, fails: the body `{"name":"","email":"x","age":5}`
of a `POST /users` request binds to a `User2` record with a violation, and the
Error Report written for it has status 500, not 400. -/
theorem users_validation_status_counterexample :
    validateUser2 sampleEmail ⟨"", "x", 5⟩ ≠ [] ∧
    ServeHTTP sampleEmail (usersRequest ⟨"", "x", 5⟩) =
      { status := 500, body := .jsonReport ⟨500, "Name is required"⟩ } ∧
    (ServeHTTP sampleEmail (usersRequest ⟨"", "x", 5⟩)).status ≠ 400 := by
  decide

/-- C1, amended: for every request to `POST /users` whose body binds to a
`User2` record with at least one violation, the response is the Error Report
written by the custom error handler, and its HTTP status is 500: a
`validator.ValidationErrors` value is not an `*echo.HTTPError`, so the handler
builds the report with `http.StatusInternalServerError` and then only replaces
its message. -/
theorem users_validation_status (isEmail : String → Bool) (req : Request) (u : User2)
    (hm : req.Method = "POST") (hp : req.Path = "/users") (hb : req.bindUser2 = .ok u)
    (h : validateUser2 isEmail u ≠ []) :
    (ServeHTTP isEmail req).status = 500 ∧
    (ServeHTTP isEmail req).body =
      .jsonReport (HTTPErrorHandler (.validationErrors (validateUser2 isEmail u))) ∧
    (HTTPErrorHandler (.validationErrors (validateUser2 isEmail u))).Code = 500 := by
  rw [ServeHTTP_users isEmail req hm hp, hb, postUsers_invalid isEmail u h]
  simp [respond, handler_validation_Code]

/-- Witness of C1 amended, at `{"name":"","email":"x","age":5}`. -/
theorem users_validation_status_witness :
    validateUser2 sampleEmail ⟨"", "x", 5⟩ ≠ [] ∧
    (ServeHTTP sampleEmail (usersRequest ⟨"", "x", 5⟩)).status = 500 :=
  ⟨by decide,
   (users_validation_status sampleEmail (usersRequest ⟨"", "x", 5⟩) ⟨"", "x", 5⟩ rfl rfl rfl
      (by decide)).1⟩

/-- C2, as the claim states it, fails at its own witness
`{"name":"","email":"x","age":5}`: the message is `Name is required`, with the
Go field name, not `name is required`. -/
theorem users_name_required_counterexample :
    (ServeHTTP sampleEmail (usersRequest ⟨"", "x", 5⟩)).message = some "Name is required" ∧
    (ServeHTTP sampleEmail (usersRequest ⟨"", "x", 5⟩)).message ≠ some "name is required" := by
  decide

/-- C2, amended: for every `User2` record whose name is empty, whatever its
email and age, the message of the Error Report for `POST /users` is exactly
`Name is required`: only the first violation in declared field order is
surfaced, and the field is named by its Go field name `Name`. -/
theorem users_name_required (isEmail : String → Bool) (req : Request) (u : User2)
    (hm : req.Method = "POST") (hp : req.Path = "/users") (hb : req.bindUser2 = .ok u)
    (h : u.Name = "") :
    (ServeHTTP isEmail req).message = some "Name is required" := by
  obtain ⟨rest, hv⟩ := validateUser2_name_empty isEmail u h
  exact ServeHTTP_users_message isEmail req u _ rest _ hm hp hb hv (by decide)

/-- Witness of C2 amended, at `{"name":"","email":"x","age":5}`. -/
theorem users_name_required_witness :
    (ServeHTTP sampleEmail (usersRequest ⟨"", "x", 5⟩)).message = some "Name is required" :=
  users_name_required sampleEmail (usersRequest ⟨"", "x", 5⟩) ⟨"", "x", 5⟩ rfl rfl rfl rfl

/-- C3: for a non-empty list of violations `fe :: rest` given to the error
handler, the message of the Error Report is `<field> is required` for the tag
`required`, `<field> is not valid email` for `email`,
`<field> value must be greater than <param>` for `gte` and
`<field> value must be lower than <param>` for `lte`; for these tags it is the
same whatever violations follow the first. -/
theorem handler_message_of_first_violation (fe : FieldError) (rest : List FieldError) :
    (fe.Tag = "required" →
      (HTTPErrorHandler (.validationErrors (fe :: rest))).Message =
        fe.Field ++ " is required") ∧
    (fe.Tag = "email" →
      (HTTPErrorHandler (.validationErrors (fe :: rest))).Message =
        fe.Field ++ " is not valid email") ∧
    (fe.Tag = "gte" →
      (HTTPErrorHandler (.validationErrors (fe :: rest))).Message =
        fe.Field ++ " value must be greater than " ++ fe.Param) ∧
    (fe.Tag = "lte" →
      (HTTPErrorHandler (.validationErrors (fe :: rest))).Message =
        fe.Field ++ " value must be lower than " ++ fe.Param) ∧
    (fe.Tag ∈ ["required", "email", "gte", "lte"] →
      ∀ rest2 : List FieldError,
        (HTTPErrorHandler (.validationErrors (fe :: rest2))).Message =
          (HTTPErrorHandler (.validationErrors (fe :: rest))).Message) := by
  refine ⟨?_, ?_, ?_, ?_, ?_⟩
  · intro h
    exact handler_validation_Message fe rest _ (by simp [tagMessage, h])
  · intro h
    exact handler_validation_Message fe rest _ (by simp [tagMessage, h])
  · intro h
    exact handler_validation_Message fe rest _ (by simp [tagMessage, h])
  · intro h
    exact handler_validation_Message fe rest _ (by simp [tagMessage, h])
  · intro h rest2
    have hm : ∃ m, tagMessage fe = some m := by
      simp only [List.mem_cons, List.mem_singleton, List.not_mem_nil, or_false] at h
      rcases h with h | h | h | h <;> simp [tagMessage, h]
    obtain ⟨m, hm⟩ := hm
    rw [handler_validation_Message fe rest2 m hm, handler_validation_Message fe rest m hm]

/-- Witness of C3: an `lte` violation of `Age` followed by another violation. -/
theorem handler_message_of_first_violation_witness :
    (HTTPErrorHandler (.validationErrors
      [⟨"User2.Age", "Age", "lte", "80"⟩, ⟨"User2.Name", "Name", "required", ""⟩])).Message =
      "Age value must be lower than 80" ∧
    (HTTPErrorHandler (.validationErrors [⟨"User2.Age", "Age", "lte", "80"⟩])).Message =
      (HTTPErrorHandler (.validationErrors
        [⟨"User2.Age", "Age", "lte", "80"⟩, ⟨"User2.Name", "Name", "required", ""⟩])).Message :=
  ⟨(handler_message_of_first_violation ⟨"User2.Age", "Age", "lte", "80"⟩
      [⟨"User2.Name", "Name", "required", ""⟩]).2.2.2.1 rfl,
   (handler_message_of_first_violation ⟨"User2.Age", "Age", "lte", "80"⟩
      [⟨"User2.Name", "Name", "required", ""⟩]).2.2.2.2 (by decide) []⟩

/-- C7: for a failure that is not a list of validation violations, the Error
Report is the failure itself (same status, same message) when it is an
`*echo.HTTPError`, and otherwise has status 500 and the failure's error text as
message. -/
theorem handler_other_failures (err : GoError)
    (h : ∀ ve, err ≠ .validationErrors ve) :
    (∀ e, err = .httpError e →
      HTTPErrorHandler err = e ∧ (HTTPErrorHandler err).Code = e.Code ∧
        (HTTPErrorHandler err).Message = e.Message) ∧
    ((∀ e, err ≠ .httpError e) →
      (HTTPErrorHandler err).Code = 500 ∧ (HTTPErrorHandler err).Message = err.Error) := by
  cases err with
  | httpError e0 =>
    refine ⟨?_, ?_⟩
    · intro e he
      cases he
      simp [HTTPErrorHandler]
    · intro hne
      exact absurd rfl (hne e0)
  | validationErrors ve => exact absurd rfl (h ve)
  | other text =>
    refine ⟨?_, ?_⟩
    · intro e he
      cases he
    · intro _
      simp [HTTPErrorHandler, NewHTTPError, StatusInternalServerError]

/-- Witness of C7: a bind failure `*echo.HTTPError` with status 400 keeps its
status and message, and a plain error gets status 500 with its text. -/
theorem handler_other_failures_witness :
    HTTPErrorHandler (.httpError ⟨400, "Bad Request"⟩) = ⟨400, "Bad Request"⟩ ∧
    (HTTPErrorHandler (.other "unexpected EOF")).Code = 500 ∧
    (HTTPErrorHandler (.other "unexpected EOF")).Message = "unexpected EOF" :=
  ⟨((handler_other_failures (.httpError ⟨400, "Bad Request"⟩)
      (fun _ hve => GoError.noConfusion hve)).1 ⟨400, "Bad Request"⟩ rfl).1,
   (handler_other_failures (.other "unexpected EOF")
      (fun _ hve => GoError.noConfusion hve)).2 (fun _ he => GoError.noConfusion he)⟩

/-! ## `POST /users` -/

/-- C4: for every request to `POST /users` whose body binds to a `User2`
record, the response is 200 with body `true` exactly when the name is not
empty, the email is not empty and passes the e-mail format check, and
`0 <= age <= 80` (both bounds included); otherwise the handler returns the
validation failure, a non-empty list of violations. -/
theorem users_accepts_iff (isEmail : String → Bool) (req : Request) (u : User2)
    (hm : req.Method = "POST") (hp : req.Path = "/users") (hb : req.bindUser2 = .ok u) :
    (ServeHTTP isEmail req = { status := 200, body := .jsonBool true } ↔
      (u.Name ≠ "" ∧ u.Email ≠ "" ∧ isEmail u.Email = true ∧ 0 ≤ u.Age ∧ u.Age ≤ 80)) ∧
    (¬ (u.Name ≠ "" ∧ u.Email ≠ "" ∧ isEmail u.Email = true ∧ 0 ≤ u.Age ∧ u.Age ≤ 80) →
      validateUser2 isEmail u ≠ [] ∧
      postUsers isEmail req.bindUser2 = .error (.validationErrors (validateUser2 isEmail u))) := by
  have hiff := validateUser2_eq_nil isEmail u
  rw [ServeHTTP_users isEmail req hm hp, hb]
  by_cases hv : validateUser2 isEmail u = []
  · have hc := hiff.1 hv
    refine ⟨⟨fun _ => hc, fun _ => ?_⟩, fun hn => absurd hc hn⟩
    rw [postUsers_valid isEmail u hv]
    rfl
  · have hc : ¬ (u.Name ≠ "" ∧ u.Email ≠ "" ∧ isEmail u.Email = true ∧ 0 ≤ u.Age ∧ u.Age ≤ 80) :=
      fun hc => hv (hiff.2 hc)
    refine ⟨⟨fun hr => ?_, fun h => absurd h hc⟩, fun _ => ⟨hv, postUsers_invalid isEmail u hv⟩⟩
    rw [postUsers_invalid isEmail u hv] at hr
    simp [respond] at hr

/-- Witness of C4: `{"name":"A","email":"a@b.com","age":30}` gives 200 `true`;
ages 0 and 80 are accepted, ages -1 and 81 are rejected. -/
theorem users_accepts_iff_witness :
    ServeHTTP sampleEmail (usersRequest ⟨"A", "a@b.com", 30⟩) =
      { status := 200, body := .jsonBool true } ∧
    ServeHTTP sampleEmail (usersRequest ⟨"A", "a@b.com", 0⟩) =
      { status := 200, body := .jsonBool true } ∧
    ServeHTTP sampleEmail (usersRequest ⟨"A", "a@b.com", 80⟩) =
      { status := 200, body := .jsonBool true } ∧
    validateUser2 sampleEmail ⟨"A", "a@b.com", -1⟩ ≠ [] ∧
    validateUser2 sampleEmail ⟨"A", "a@b.com", 81⟩ ≠ [] :=
  ⟨(users_accepts_iff sampleEmail (usersRequest ⟨"A", "a@b.com", 30⟩) ⟨"A", "a@b.com", 30⟩
      rfl rfl rfl).1.2 (by decide),
   (users_accepts_iff sampleEmail (usersRequest ⟨"A", "a@b.com", 0⟩) ⟨"A", "a@b.com", 0⟩
      rfl rfl rfl).1.2 (by decide),
   (users_accepts_iff sampleEmail (usersRequest ⟨"A", "a@b.com", 80⟩) ⟨"A", "a@b.com", 80⟩
      rfl rfl rfl).1.2 (by decide),
   ((users_accepts_iff sampleEmail (usersRequest ⟨"A", "a@b.com", -1⟩) ⟨"A", "a@b.com", -1⟩
      rfl rfl rfl).2 (by decide)).1,
   ((users_accepts_iff sampleEmail (usersRequest ⟨"A", "a@b.com", 81⟩) ⟨"A", "a@b.com", 81⟩
      rfl rfl rfl).2 (by decide)).1⟩

/-- C5, as the claim states it, fails at its own witness
`{"name":"A","email":"a@b.com","age":90}`: the message is
`Age value must be lower than 80`, with the Go field name, not
`age value must be lower than 80`. -/
theorem users_age_high_counterexample :
    (ServeHTTP sampleEmail (usersRequest ⟨"A", "a@b.com", 90⟩)).message =
      some "Age value must be lower than 80" ∧
    (ServeHTTP sampleEmail (usersRequest ⟨"A", "a@b.com", 90⟩)).message ≠
      some "age value must be lower than 80" := by
  decide

/-- C5, amended: for every `User2` record with a non-empty name, a non-empty
email that passes the e-mail format check and `age > 80`, the message of the
Error Report for `POST /users` is exactly `Age value must be lower than 80`
(the field is named by its Go field name `Age`). -/
theorem users_age_high (isEmail : String → Bool) (req : Request) (u : User2)
    (hm : req.Method = "POST") (hp : req.Path = "/users") (hb : req.bindUser2 = .ok u)
    (h1 : u.Name ≠ "") (h2 : u.Email ≠ "") (h3 : isEmail u.Email = true) (h4 : 80 < u.Age) :
    (ServeHTTP isEmail req).message = some "Age value must be lower than 80" :=
  ServeHTTP_users_message isEmail req u _ [] _ hm hp hb
    (validateUser2_age_high isEmail u h1 h2 h3 h4) (by decide)

/-- Witness of C5 amended, at `{"name":"A","email":"a@b.com","age":90}`. -/
theorem users_age_high_witness :
    (ServeHTTP sampleEmail (usersRequest ⟨"A", "a@b.com", 90⟩)).message =
      some "Age value must be lower than 80" :=
  users_age_high sampleEmail (usersRequest ⟨"A", "a@b.com", 90⟩) ⟨"A", "a@b.com", 90⟩
    rfl rfl rfl (by decide) (by decide) (by decide) (by decide)

/-- C10: for every `User2` record with a non-empty name and an empty email,
whatever its age and whatever the e-mail format check answers, the message
surfaced for `POST /users` is the required-kind message of the email field,
`Email is required`, and not the email-format message. -/
theorem users_email_required (isEmail : String → Bool) (req : Request) (u : User2)
    (hm : req.Method = "POST") (hp : req.Path = "/users") (hb : req.bindUser2 = .ok u)
    (h1 : u.Name ≠ "") (h2 : u.Email = "") :
    (ServeHTTP isEmail req).message = some "Email is required" ∧
    (ServeHTTP isEmail req).message ≠ some "Email is not valid email" := by
  obtain ⟨rest, hv⟩ := validateUser2_email_empty isEmail u h1 h2
  have hmsg := ServeHTTP_users_message isEmail req u _ rest _ hm hp hb hv
    (show tagMessage ⟨"User2.Email", "Email", "required", ""⟩ = some "Email is required" by
      decide)
  refine ⟨hmsg, ?_⟩
  rw [hmsg]
  decide

/-- Witness of C10, at name `A`, empty email, age 200. -/
theorem users_email_required_witness :
    (ServeHTTP sampleEmail (usersRequest ⟨"A", "", 200⟩)).message =
      some "Email is required" :=
  (users_email_required sampleEmail (usersRequest ⟨"A", "", 200⟩) ⟨"A", "", 200⟩ rfl rfl rfl
    (by decide) rfl).1

/-! ## `POST /page4` -/

/-- C6: for every request to `POST /page4` with form values `name` and
`message`, the response is 200 with the text
`Hello <name>, I have a message for you: <m>`, where `m` is `message` without
its first `/`: when `message = pre ++ "/" ++ post` with no `/` in `pre`,
`m = pre ++ post` (every later `/` and every other character kept in order),
and when `message` has no `/`, `m = message`. -/
theorem page4_response (isEmail : String → Bool) (req : Request) (name message : String)
    (hm : req.Method = "POST") (hp : req.Path = "/page4")
    (hname : Context.FormValue ⟨[], req.query, req.form⟩ "name" = name)
    (hmessage : Context.FormValue ⟨[], req.query, req.form⟩ "message" = message) :
    ServeHTTP isEmail req =
      { status := 200,
        body := .text ("Hello " ++ name ++ ", I have a message for you: " ++
          Replace message "/" "" 1) } ∧
    (∀ pre post : String, '/' ∉ pre.data → message = pre ++ "/" ++ post →
      Replace message "/" "" 1 = pre ++ post) ∧
    ('/' ∉ message.data → Replace message "/" "" 1 = message) := by
  refine ⟨?_, ?_, ?_⟩
  · rw [ServeHTTP_page4 isEmail req hm hp]
    simp only [postPage4, respond, hname, hmessage, StatusOK]
  · intro pre post hpre hmsg
    rw [hmsg]
    exact Replace_first pre post hpre
  · intro h
    exact Replace_absent _ h

/-- Witness of C6: name `Eve`, message `a/b/c` gives
`Hello Eve, I have a message for you: ab/c`. -/
theorem page4_response_witness :
    ServeHTTP sampleEmail (page4Request "Eve" "a/b/c") =
      { status := 200, body := .text "Hello Eve, I have a message for you: ab/c" } ∧
    Replace "a/b/c" "/" "" 1 = "ab/c" :=
  ⟨((page4_response sampleEmail (page4Request "Eve" "a/b/c") "Eve" "a/b/c" rfl rfl
      (by decide) (by decide)).1).trans (by decide),
   (page4_response sampleEmail (page4Request "Eve" "a/b/c") "Eve" "a/b/c" rfl rfl
      (by decide) (by decide)).2.1 "a" "b/c" (by decide) (by decide)⟩

/-! ## Routing -/

/-- C8: for every `GET` request on `/page3/<name>/<rest>`, with `name` a
non-empty segment without `/` and `rest` any suffix, the router selects the
handler of `/page3/:name/*`, capturing `name` and the whole of `rest` as the
single wildcard value, and the response is 200 with the text
`Hello <name>, I have a message for you: <rest>`. -/
theorem page3_route_and_response (isEmail : String → Bool) (req : Request)
    (name rest : String) (hm : req.Method = "GET")
    (hp : req.Path = "/page3/" ++ name ++ "/" ++ rest)
    (h0 : name ≠ "") (h : '/' ∉ name.data) :
    Find req.Method req.Path = .found .page3 [("name", name), ("*", rest)] ∧
    ServeHTTP isEmail req =
      { status := 200,
        body := .text ("Hello " ++ name ++ ", I have a message for you: " ++ rest) } := by
  have hf := Find_page3 name rest h0 h
  refine ⟨?_, ?_⟩
  · rw [hm, hp, hf]
  · simp [ServeHTTP, hm, hp, hf, handle, getPage3, respond, Context.Param, List.lookup,
      StatusOK]

/-- Witness of C8: `/page3/Bob/hello/world` gives name `Bob` and wildcard
`hello/world`. -/
theorem page3_route_and_response_witness :
    Find "GET" "/page3/Bob/hello/world" =
      .found .page3 [("name", "Bob"), ("*", "hello/world")] ∧
    ServeHTTP sampleEmail (plainRequest "GET" "/page3/Bob/hello/world") =
      { status := 200, body := .text "Hello Bob, I have a message for you: hello/world" } :=
  ⟨(page3_route_and_response sampleEmail (plainRequest "GET" "/page3/Bob/hello/world")
      "Bob" "hello/world" rfl (by decide) (by decide) (by decide)).1,
   ((page3_route_and_response sampleEmail (plainRequest "GET" "/page3/Bob/hello/world")
      "Bob" "hello/world" rfl (by decide) (by decide) (by decide)).2).trans (by decide)⟩

/-- C9, as the claim states it, fails: `POST /index` matches none of the
registrations of `main` (the path is registered for `GET` only), and the
response is the Error Report with status 405, not 404. -/
theorem unrouted_status_counterexample :
    (routes.all (fun r =>
      !(r.Method == "POST" && (matchPieces r.Path "/index".data).isSome))) = true ∧
    Find "POST" "/index" = .methodNotAllowed ∧
    ServeHTTP sampleEmail (plainRequest "POST" "/index") =
      { status := 405, body := .jsonReport ⟨405, "Method Not Allowed"⟩ } ∧
    (ServeHTTP sampleEmail (plainRequest "POST" "/index")).status ≠ 404 := by
  decide

/-- C9, amended: for every request passed to echo whose (method, path) matches
none of the registrations of `main`:

* when the path matches no registered path at all, the response is the Error
  Report with status 404 (`Not Found`), the failure of `NotFoundHandler` passed
  unchanged through the custom error handler;
* when the path matches a path registered for other methods only and the
  method is not `OPTIONS`, the response is the Error Report with status 405
  (`Method Not Allowed`), the failure of `MethodNotAllowedHandler` passed
  unchanged through the custom error handler;
* when the path matches a path registered for other methods only and the
  method is `OPTIONS`, echo's own handler answers 204 with an empty body and
  an `Allow` header, and the error handler is not called. -/
theorem unrouted_status (isEmail : String → Bool) (req : Request)
    (h : ∀ r ∈ routes, r.Method = req.Method → matchPieces r.Path req.Path.data = none) :
    ((∀ r ∈ routes, matchPieces r.Path req.Path.data = none) →
      ServeHTTP isEmail req =
        { status := 404, body := .jsonReport (HTTPErrorHandler (.httpError ErrNotFound)) } ∧
      HTTPErrorHandler (.httpError ErrNotFound) = ⟨404, "Not Found"⟩) ∧
    ((∃ r ∈ routes, matchPieces r.Path req.Path.data ≠ none) → req.Method ≠ "OPTIONS" →
      ServeHTTP isEmail req =
        { status := 405,
          body := .jsonReport (HTTPErrorHandler (.httpError ErrMethodNotAllowed)) } ∧
      HTTPErrorHandler (.httpError ErrMethodNotAllowed) = ⟨405, "Method Not Allowed"⟩) ∧
    ((∃ r ∈ routes, matchPieces r.Path req.Path.data ≠ none) → req.Method = "OPTIONS" →
      ServeHTTP isEmail req =
        { status := 204,
          body := .noContent ("OPTIONS" :: (matching req.Path).map (fun x => x.1.Method)) } ∧
      Find req.Method req.Path =
        .optionsMethod ("OPTIONS" :: (matching req.Path).map (fun x => x.1.Method))) := by
  have hf := find_none_of_unmatched req.Method req.Path h
  have hemp : (∃ r ∈ routes, matchPieces r.Path req.Path.data ≠ none) →
      (matching req.Path).isEmpty = false := by
    intro hsome
    have hne : matching req.Path ≠ [] := by
      intro hnil
      obtain ⟨r, hr, hmp⟩ := hsome
      exact hmp ((matching_eq_nil_iff req.Path).1 hnil r hr)
    cases hmp : matching req.Path with
    | nil => exact absurd hmp hne
    | cons a l => rfl
  refine ⟨?_, ?_, ?_⟩
  · intro hnone
    have hnil := (matching_eq_nil_iff req.Path).2 hnone
    refine ⟨?_, rfl⟩
    simp [ServeHTTP, Find, hnil, NotFoundHandler, respond, HTTPErrorHandler, ErrNotFound,
      NewHTTPError]
  · intro hsome hopt
    have hfind : Find req.Method req.Path = .methodNotAllowed := by
      simp [Find, hf, hemp hsome, hopt]
    refine ⟨?_, rfl⟩
    simp [ServeHTTP, hfind, MethodNotAllowedHandler, respond, HTTPErrorHandler,
      ErrMethodNotAllowed, NewHTTPError]
  · intro hsome hopt
    have hfind : Find req.Method req.Path =
        .optionsMethod ("OPTIONS" :: (matching req.Path).map (fun x => x.1.Method)) := by
      have hmo : (req.Method == "OPTIONS") = true := by simp [hopt]
      simp only [Find, hf, hemp hsome, hmo]
      simp
    refine ⟨?_, hfind⟩
    simp [ServeHTTP, hfind, optionsMethodHandler, respond]

/-- Witness of C9 amended: `GET /nothing` matches no registered path and gets
404; `POST /index` and `POST /page3//x` match a path registered for `GET` only
and get 405; `OPTIONS /index` gets 204 with `Allow: OPTIONS, GET`. -/
theorem unrouted_status_witness :
    ServeHTTP sampleEmail (plainRequest "GET" "/nothing") =
      { status := 404, body := .jsonReport ⟨404, "Not Found"⟩ } ∧
    ServeHTTP sampleEmail (plainRequest "POST" "/index") =
      { status := 405, body := .jsonReport ⟨405, "Method Not Allowed"⟩ } ∧
    ServeHTTP sampleEmail (plainRequest "POST" "/page3//x") =
      { status := 405, body := .jsonReport ⟨405, "Method Not Allowed"⟩ } ∧
    ServeHTTP sampleEmail (plainRequest "OPTIONS" "/index") =
      { status := 204, body := .noContent ["OPTIONS", "GET"] } :=
  ⟨((unrouted_status sampleEmail (plainRequest "GET" "/nothing") (by decide)).1
      (by decide)).1,
   ((unrouted_status sampleEmail (plainRequest "POST" "/index") (by decide)).2.1
      (by decide) (by decide)).1,
   ((unrouted_status sampleEmail (plainRequest "POST" "/page3//x") (by decide)).2.1
      (by decide) (by decide)).1,
   ((unrouted_status sampleEmail (plainRequest "OPTIONS" "/index") (by decide)).2.2
      (by decide) rfl).1⟩

end Session5
